import Mathlib

/-!
Verification of the `always_send` crate (src/lib.rs): a transparent wrapper
`AlwaysSend<T>` that checks `T: Send` only at construction time and then
implements `Send` unconditionally, forwarding `Future` (and, under the
`stream` feature, `Stream`/`FusedStream`/`FusedFuture`) to the inner value.

The development has two layers.

Type-level layer: a small deep embedding of the Rust types involved, with the
auto-trait capabilities `Send`/`Sync`/`Unpin` computed by the language's
auto-trait rules together with the crate's explicit impls
(`unsafe impl<T> Send for AlwaysSend<T>` at lib.rs:83 and
`impl<T: Unpin> Unpin for AlwaysSend<T>` at lib.rs:86), plus a variance
calculus for the marker field `PhantomData<fn() -> *mut T>` (lib.rs:79) and a
table of the trait bounds each method's impl block demands (lib.rs:91,
lib.rs:134).

Value-level layer: a shallow embedding of the runtime behaviour. The wrapper
is a single-field structure (the `PhantomData` marker is zero-sized and has
no runtime representation); `Future::poll` / `Stream::poll_next` are modelled
in state-passing style (a pinned mutable reference that is polled becomes a
state in, state out function); `&self` observer methods become pure
functions of the state. Reference reinterpretation (`from_ref`'s pointer
cast, lib.rs:106) is modelled both on values and on addresses.
-/

/-! ## Type-level model: capabilities `Send`, `Sync`, `Unpin` -/

/-- Deep embedding of the Rust types the claims quantify over: an opaque
primitive type with given `Send`/`Sync`/`Unpin` capabilities, the crate's
wrapper `AlwaysSend<T>` (lib.rs:73), and a shared reference `&T`. -/
inductive Ty : Type
  | prim (send sync unpin : Bool)
  | alwaysSend (t : Ty)
  | ref (t : Ty)
deriving DecidableEq

/-- Whether a type is `Sync`. `AlwaysSend<T>` has no manual `Sync` impl, so
the auto-trait rule applies: it is `Sync` iff all fields are. Its fields are
`inner: T` and the marker `PhantomData<fn() -> *mut T>`; function pointers
(hence their `PhantomData`) are always `Sync`, so `AlwaysSend<T>: Sync` iff
`T: Sync`. A shared reference `&T` is `Sync` iff `T` is. -/
def syncable : Ty → Bool
  | .prim _ y _ => y
  | .alwaysSend t => syncable t
  | .ref t => syncable t

/-- Whether a type is `Send`. For `AlwaysSend<T>` this is the crate's
`unsafe impl<T> Send for AlwaysSend<T> {}` (lib.rs:83): unconditionally
`true`, with no constraint on `T`. A shared reference `&T` is `Send` iff
`T` is `Sync` (Rust's rule for references). -/
def sendable : Ty → Bool
  | .prim s _ _ => s
  | .alwaysSend _ => true
  | .ref t => syncable t

/-- Whether a type is `Unpin`. The crate declares
`impl<T: Unpin> Unpin for AlwaysSend<T> {}` (lib.rs:86); a manual impl
suppresses the auto impl, and no other `Unpin` impl for the wrapper exists,
so `AlwaysSend<T>: Unpin` holds exactly when `T: Unpin`. References are
always `Unpin`. -/
def unpin : Ty → Bool
  | .prim _ _ u => u
  | .alwaysSend t => unpin t
  | .ref _ => true

/-! ## Type-level model: variance of the parameter `T` -/

/-- Variance of a generic parameter position, as in Rust's variance
inference. -/
inductive Variance : Type
  | bivariant
  | covariant
  | contravariant
  | invariant
deriving DecidableEq

/-- Variance transformation: the variance of a parameter appearing inside a
context of variance `v` is `v.compose` applied to its variance in the inner
position (Rust RFC 738 style composition; a position that does not mention
the parameter stays bivariant). -/
def Variance.compose : Variance → Variance → Variance
  | _, .bivariant => .bivariant
  | .bivariant, _ => .bivariant
  | .covariant, v => v
  | .contravariant, .covariant => .contravariant
  | .contravariant, .contravariant => .covariant
  | .contravariant, .invariant => .invariant
  | .invariant, _ => .invariant

/-- Combining the variances of two field positions of the same struct:
the greatest lower bound in the variance lattice (bivariant on top,
invariant at the bottom). -/
def Variance.meet : Variance → Variance → Variance
  | .bivariant, v => v
  | v, .bivariant => v
  | .covariant, .covariant => .covariant
  | .contravariant, .contravariant => .contravariant
  | _, _ => .invariant

/-- Syntactic positions in which the struct parameter `T` occurs inside a
field type: `T` itself, the return position of a function pointer
`fn() -> _` (covariant context), a raw mutable pointer `*mut _` (invariant
context), and `PhantomData<_>` (transparent for variance). -/
inductive TyPos : Type
  | param
  | fnRet (e : TyPos)
  | mutPtr (e : TyPos)
  | phantomData (e : TyPos)

/-- Variance of the parameter `T` in a field position, by Rust's rules:
`T` itself is covariant, `fn() -> X` is covariant in `X`, `*mut X` is
invariant in `X`, and `PhantomData<X>` has exactly the variance of `X`. -/
def varianceIn : TyPos → Variance
  | .param => .covariant
  | .fnRet e => Variance.compose .covariant (varianceIn e)
  | .mutPtr e => Variance.compose .invariant (varianceIn e)
  | .phantomData e => varianceIn e

/-- The position of `T` in the wrapper's marker field
`marker: PhantomData<fn() -> *mut T>` (lib.rs:79). -/
def markerPos : TyPos := .phantomData (.fnRet (.mutPtr .param))

/-- The position of `T` in the wrapper's data field `inner: T` (lib.rs:78). -/
def innerPos : TyPos := .param

/-- Variance of `T` in `AlwaysSend<T>`: the meet over its two fields. -/
def alwaysSendVariance : Variance :=
  Variance.meet (varianceIn innerPos) (varianceIn markerPos)

/-! ## Type-level model: trait bounds demanded by each method -/

/-- Trait bounds that an impl block can demand of the parameter. The only
bound occurring in the crate's inherent impl blocks is `T: Send`. -/
inductive Bound : Type
  | send
deriving DecidableEq

/-- Whether a bound holds at a type. -/
def boundHolds : Bound → Ty → Bool
  | .send, t => sendable t

/-- The methods of `AlwaysSend<T>` in src/lib.rs. -/
inductive Method : Type
  | new
  | from_ref
  | from_mut
  | from_pin_ref
  | from_pin_mut
  | inner_pin
  | inner_pin_mut
deriving DecidableEq

/-- The bounds on `T` required to call each method, read off from the impl
block each one is declared in: `new`, `from_ref`, `from_mut`, `from_pin_ref`
and `from_pin_mut` all live in `impl<T: Send> AlwaysSend<T>` (lib.rs:91),
while `inner_pin` and `inner_pin_mut` live in the unconstrained
`impl<T> AlwaysSend<T>` (lib.rs:134). -/
def requiredBounds : Method → List Bound
  | .new => [.send]
  | .from_ref => [.send]
  | .from_mut => [.send]
  | .from_pin_ref => [.send]
  | .from_pin_mut => [.send]
  | .inner_pin => []
  | .inner_pin_mut => []

/-- A method is available at a type when every bound of its impl block
holds there. -/
def methodAvailable (m : Method) (t : Ty) : Bool :=
  (requiredBounds m).all (fun b => boundHolds b t)

/-! ## Value-level model: the wrapper and its constructors -/

/-- Shallow embedding of the wrapper struct (lib.rs:73). The
`marker: PhantomData<fn() -> *mut T>` field is zero-sized with no runtime
representation, so the runtime value is exactly the single public field
`inner`; `#[repr(transparent)]` makes the layout identical to `T`. -/
structure AlwaysSend (α : Type) : Type where
  inner : α
deriving DecidableEq

/-- Model of `AlwaysSend::new` (lib.rs:93): stores the given value in the
`inner` field (the marker is `PhantomData`). The `T: Send` bound of its impl
block is modelled in the type-level layer (`requiredBounds Method.new`). -/
def AlwaysSend.new (inner : α) : AlwaysSend α := ⟨inner⟩

/-- Model of `AlwaysSend::from_ref` (lib.rs:104) on the referenced value:
the body is the pointer reinterpretation `&*(r as *const T as *const Self)`,
which by `#[repr(transparent)]` views the same `T` value as a wrapper whose
`inner` field is that value. Bound modelled in `requiredBounds`. -/
def AlwaysSend.from_ref (r : α) : AlwaysSend α := ⟨r⟩

/-- Model of `AlwaysSend::from_mut` (lib.rs:113) on the referenced value:
same transparent reinterpretation as `from_ref`, through `*mut` pointers. -/
def AlwaysSend.from_mut (r : α) : AlwaysSend α := ⟨r⟩

/-- Model of `AlwaysSend::from_pin_ref` (lib.rs:121): the body is
`r.map_unchecked(Self::from_ref)`, i.e. `from_ref` applied under the pin. -/
def AlwaysSend.from_pin_ref (r : α) : AlwaysSend α := AlwaysSend.from_ref r

/-- Model of `AlwaysSend::from_pin_mut` (lib.rs:129): the body is
`r.map_unchecked_mut(Self::from_mut)`, i.e. `from_mut` under the pin. -/
def AlwaysSend.from_pin_mut (r : α) : AlwaysSend α := AlwaysSend.from_mut r

/-- Model of `AlwaysSend::inner_pin` (lib.rs:136): the pinned projection
`self.map_unchecked(|this| &this.inner)`, i.e. reading the `inner` field
under the pin. -/
def AlwaysSend.inner_pin (self : AlwaysSend α) : α := self.inner

/-- Model of `AlwaysSend::inner_pin_mut` (lib.rs:142): the pinned mutable
projection `self.map_unchecked_mut(|this| &mut this.inner)`. -/
def AlwaysSend.inner_pin_mut (self : AlwaysSend α) : α := self.inner

/-! ## Value-level model: addresses under the transparent reinterpretation -/

/-- Address of the wrapper reference produced by `from_ref`'s cast
`r as *const T as *const Self` (lib.rs:106): a raw pointer cast preserves
the address. -/
def from_ref_addr (a : Nat) : Nat := a

/-- Byte offset of the `inner` field inside the wrapper:
`#[repr(transparent)]` (lib.rs:72) forces the single non-zero-sized field
to be at offset 0 with the wrapper's layout identical to `T`'s. -/
def inner_offset : Nat := 0

/-- Address of `&wrapper.inner` given the wrapper's own address. -/
def inner_addr (w : Nat) : Nat := w + inner_offset

/-! ## Value-level model: Future / Stream forwarding -/

/-- Model of `core::task::Poll`. -/
inductive Poll (ω : Type) : Type
  | ready (out : ω)
  | pending
deriving DecidableEq

/-- A `Future` implementation on state type `σ` with output `ω` and poll
contexts `κ`: polling a pinned mutable reference mutates the state in place
and returns `Poll`, modelled in state-passing style. -/
structure FutureImpl (σ ω κ : Type) : Type where
  poll : σ → κ → σ × Poll ω

/-- A `Stream` implementation: `poll_next` as for futures, plus the
`size_hint` observer returning `(usize, Option<usize>)`. -/
structure StreamImpl (σ ι κ : Type) : Type where
  poll_next : σ → κ → σ × Poll (Option ι)
  size_hint : σ → Nat × Option Nat

/-- A `FusedStream` implementation: a stream plus the `is_terminated`
observer. -/
structure FusedStreamImpl (σ ι κ : Type) extends StreamImpl σ ι κ : Type where
  is_terminated : σ → Bool

/-- A `FusedFuture` implementation: a future plus the `is_terminated`
observer. -/
structure FusedFutureImpl (σ ω κ : Type) extends FutureImpl σ ω κ : Type where
  is_terminated : σ → Bool

/-- Model of `impl<F: Future> Future for AlwaysSend<F>` (lib.rs:164): the
body is `self.inner_pin_mut().poll(cx)` — project the pinned inner value,
poll it in place, return the result verbatim. -/
def AlwaysSend.poll (F : FutureImpl σ ω κ) (self : AlwaysSend σ) (cx : κ) :
    AlwaysSend σ × Poll ω :=
  let r := F.poll self.inner_pin_mut cx
  (AlwaysSend.mk r.1, r.2)

/-- Model of `Stream::poll_next` for the wrapper (lib.rs:185): the body is
`self.inner_pin_mut().poll_next(cx)`. -/
def AlwaysSend.poll_next (S : StreamImpl σ ι κ) (self : AlwaysSend σ) (cx : κ) :
    AlwaysSend σ × Poll (Option ι) :=
  let r := S.poll_next self.inner_pin_mut cx
  (AlwaysSend.mk r.1, r.2)

/-- Model of `Stream::size_hint` for the wrapper (lib.rs:192): the body is
`self.inner.size_hint()`, a `&self` observer, hence a pure function of the
state. -/
def AlwaysSend.size_hint (S : StreamImpl σ ι κ) (self : AlwaysSend σ) :
    Nat × Option Nat :=
  S.size_hint self.inner

/-- Model of `FusedStream::is_terminated` for the wrapper (lib.rs:200):
the body is `self.inner.is_terminated()`. -/
def AlwaysSend.stream_is_terminated (S : FusedStreamImpl σ ι κ)
    (self : AlwaysSend σ) : Bool :=
  S.is_terminated self.inner

/-- Model of `FusedFuture::is_terminated` for the wrapper (lib.rs:208):
the body is `self.inner.is_terminated()`. -/
def AlwaysSend.future_is_terminated (F : FusedFutureImpl σ ω κ)
    (self : AlwaysSend σ) : Bool :=
  F.is_terminated self.inner

/-- Model of `impl<T: Send> From<T> for AlwaysSend<T>` (lib.rs:155): the
body is `AlwaysSend::new(value)`. -/
def AlwaysSend.from_value (value : α) : AlwaysSend α := AlwaysSend.new value

/-- Model of `FutureExt::always_send` (lib.rs:217): the provided method body
is `AlwaysSend::new(self)`; the trait's `Future + Send` bounds are
availability conditions, not part of the computation. -/
def FutureExt.always_send (self : α) : AlwaysSend α := AlwaysSend.new self

/-- Model of `StreamExt::always_send` (lib.rs:230): the provided method body
is `AlwaysSend::new(self)`. -/
def StreamExt.always_send (self : α) : AlwaysSend α := AlwaysSend.new self

/-! ## Derived executions used by the theorems -/

/-- Pull `n` results from a bare stream, feeding the successor state back in
each time and recording each `poll_next` result in order. -/
def pullN (S : StreamImpl σ ι κ) (cx : κ) : Nat → σ → List (Poll (Option ι))
  | 0, _ => []
  | n + 1, s =>
    let r := S.poll_next s cx
    r.2 :: pullN S cx n r.1

/-- Pull `n` results from a wrapped stream through the forwarded
`poll_next`. -/
def pullNWrapped (S : StreamImpl σ ι κ) (cx : κ) :
    Nat → AlwaysSend σ → List (Poll (Option ι))
  | 0, _ => []
  | n + 1, w =>
    let r := AlwaysSend.poll_next S w cx
    r.2 :: pullNWrapped S cx n r.1

/-- One increment of a wrapped counter through the public `inner` field
(the spec's counter scenario: `wrapper.inner += 1`). -/
def incrementInner (w : AlwaysSend Nat) : AlwaysSend Nat :=
  AlwaysSend.mk (w.inner + 1)

/-- Calling a `&self` observer method: the caller keeps the value, and
receives the observer's answer alongside it. -/
def observe (f : AlwaysSend σ → β) (self : AlwaysSend σ) :
    AlwaysSend σ × β :=
  (self, f self)

/-! ## Helper lemmas -/

/-- Pulling through the wrapper's forwarded `poll_next` yields the same
result list as pulling from the bare stream, from any starting state. -/
theorem pullN_wrapped_eq (S : StreamImpl σ ι κ) (cx : κ) (n : Nat) :
    ∀ s : σ, pullNWrapped S cx n (AlwaysSend.mk s) = pullN S cx n s := by
  induction n with
  | zero => intro s; rfl
  | succ n ih =>
    intro s
    have h : pullNWrapped S cx (n + 1) (AlwaysSend.mk s)
        = (S.poll_next s cx).2
          :: pullNWrapped S cx n (AlwaysSend.mk (S.poll_next s cx).1) := rfl
    rw [h, ih]
    rfl

/-- Iterating the wrapped-counter increment tracks the inner value. -/
theorem incrementInner_iterate (n : Nat) :
    ∀ w : AlwaysSend Nat, (incrementInner^[n] w).inner = w.inner + n := by
  induction n with
  | zero => intro w; rfl
  | succ n ih =>
    intro w
    rw [Function.iterate_succ_apply']
    show (incrementInner^[n] w).inner + 1 = w.inner + (n + 1)
    rw [ih, Nat.add_assoc]

/-- Iterating the bare-counter increment adds `n`. -/
theorem addOne_iterate (n : Nat) : ∀ c : Nat, (fun x => x + 1)^[n] c = c + n := by
  induction n with
  | zero => intro c; rfl
  | succ n ih =>
    intro c
    rw [Function.iterate_succ_apply']
    show (fun x => x + 1)^[n] c + 1 = c + (n + 1)
    rw [ih, Nat.add_assoc]

/-! ## Claims -/

/-- C1: for every type `T`, with no constraint on `T`, `AlwaysSend<T>`
implements `Send` (the `unsafe impl<T> Send for AlwaysSend<T> {}` at
lib.rs:83), and the grant cannot be invalidated afterwards by substituting
a related type for `T`, because the marker field makes the parameter
invariant. -/
theorem C1_send_unconditional_and_invariant :
    (∀ t : Ty, sendable (Ty.alwaysSend t) = true) ∧
    alwaysSendVariance = Variance.invariant :=
  ⟨fun _ => rfl, by decide⟩

/-- C2 counterexample: the claim states `from_ref` is available with no
`Send` precondition on `T`, but `from_ref` is declared inside
`impl<T: Send> AlwaysSend<T>` (lib.rs:91), so at a non-`Send` type it is
not available. -/
theorem C2_counterexample :
    methodAvailable Method.from_ref (Ty.prim false false false) = false := by
  decide

/-- C2 (amended): every wrapping constructor — by value, by reference, by
mutable reference, and by pinned reference — requires `T: Send`; only the
projection accessors `inner_pin` and `inner_pin_mut` are available for
every `T`. -/
theorem C2_all_constructors_require_send :
    ∀ t : Ty,
      methodAvailable Method.new t = sendable t ∧
      methodAvailable Method.from_ref t = sendable t ∧
      methodAvailable Method.from_mut t = sendable t ∧
      methodAvailable Method.from_pin_ref t = sendable t ∧
      methodAvailable Method.from_pin_mut t = sendable t ∧
      methodAvailable Method.inner_pin t = true ∧
      methodAvailable Method.inner_pin_mut t = true := by
  intro t
  simp [methodAvailable, requiredBounds, boundHolds]

/-- C3: polling the wrapper one step returns exactly the bare future's
result (pending or the same final output, errors included, since the output
type is arbitrary) and effects exactly the bare future's state change on
the inner value (lib.rs:164-173). -/
theorem C3_poll_transparent :
    ∀ (σ ω κ : Type) (F : FutureImpl σ ω κ) (s : σ) (cx : κ),
      (AlwaysSend.poll F (AlwaysSend.mk s) cx).2 = (F.poll s cx).2 ∧
      (AlwaysSend.poll F (AlwaysSend.mk s) cx).1.inner = (F.poll s cx).1 :=
  fun _ _ _ _ _ _ => ⟨rfl, rfl⟩

/-- C4: pulling any number of elements from the wrapped stream yields the
identical results in identical order as the bare stream, `size_hint`
returns exactly the inner stream's hint, and `is_terminated` (for fused
streams and fused futures) returns exactly the inner value's status
(lib.rs:182-211). -/
theorem C4_stream_forwarding_transparent :
    ∀ (σ ι ω κ : Type) (S : FusedStreamImpl σ ι κ) (F : FusedFutureImpl σ ω κ)
      (cx : κ) (n : Nat) (s : σ),
      pullNWrapped S.toStreamImpl cx n (AlwaysSend.mk s)
        = pullN S.toStreamImpl cx n s ∧
      AlwaysSend.size_hint S.toStreamImpl (AlwaysSend.mk s) = S.size_hint s ∧
      AlwaysSend.stream_is_terminated S (AlwaysSend.mk s) = S.is_terminated s ∧
      AlwaysSend.future_is_terminated F (AlwaysSend.mk s) = F.is_terminated s :=
  fun _ _ _ _ S _ cx n s =>
    ⟨pullN_wrapped_eq S.toStreamImpl cx n s, rfl, rfl, rfl⟩

/-- C5: wrapping a reference and reading back the inner field is the
identity, on addresses (the pointer cast of lib.rs:106 preserves the
address and `#[repr(transparent)]` puts `inner` at offset 0) and on values,
for the shared, mutable, and both pinned variants; and conversely
re-wrapping the read-back field restores the wrapper reference. -/
theorem C5_reference_roundtrip :
    ∀ (a : Nat) (α : Type) (v : α) (w : AlwaysSend α),
      inner_addr (from_ref_addr a) = a ∧
      (AlwaysSend.from_ref v).inner = v ∧
      (AlwaysSend.from_mut v).inner = v ∧
      (AlwaysSend.from_pin_ref v).inner_pin = v ∧
      (AlwaysSend.from_pin_mut v).inner_pin_mut = v ∧
      AlwaysSend.from_ref w.inner = w :=
  fun _ _ _ _ => ⟨rfl, rfl, rfl, rfl, rfl, rfl⟩

/-- C6: `AlwaysSend::new(v).inner = v` (lib.rs:93-98), and `n` increments
of a wrapped counter through the public `inner` field produce exactly the
same final value as `n` increments of the bare counter. -/
theorem C6_new_stores_value :
    ∀ (α : Type) (v : α) (n c : Nat),
      (AlwaysSend.new v).inner = v ∧
      (incrementInner^[n] (AlwaysSend.new c)).inner = (fun x => x + 1)^[n] c :=
  fun _ _ n c => ⟨rfl, by rw [incrementInner_iterate, addOne_iterate]; rfl⟩

/-- C7: the `From` conversion (lib.rs:155-161) and the `always_send`
extension methods on futures (lib.rs:217) and streams (lib.rs:230) each
produce exactly `AlwaysSend::new(v)`. -/
theorem C7_conversions_agree :
    ∀ (α : Type) (v : α),
      AlwaysSend.from_value v = AlwaysSend.new v ∧
      FutureExt.always_send v = AlwaysSend.new v ∧
      StreamExt.always_send v = AlwaysSend.new v :=
  fun _ _ => ⟨rfl, rfl, rfl⟩

/-- C8: `AlwaysSend<T>` is `Unpin` precisely when `T` is `Unpin`
(the manual `impl<T: Unpin> Unpin for AlwaysSend<T>` at lib.rs:86
suppresses the auto impl): the capability is equal on wrapper and inner, it
is absent for some wrapped type (no unconditional freedom to move), and
present exactly when the inner type has it. -/
theorem C8_unpin_iff :
    (∀ t : Ty, unpin (Ty.alwaysSend t) = unpin t) ∧
    (∃ t : Ty, unpin (Ty.alwaysSend t) = false) ∧
    (∃ t : Ty, unpin t = true ∧ unpin (Ty.alwaysSend t) = true) :=
  ⟨fun _ => rfl, ⟨Ty.prim true true false, rfl⟩,
    ⟨Ty.prim true true true, rfl, rfl⟩⟩

/-- C9: `size_hint` and the two `is_terminated` queries are pure observers:
called as `&self` methods they leave the wrapper (hence its inner value)
unchanged and return exactly the inner value's answer
(lib.rs:192-194, lib.rs:199-211). -/
theorem C9_observers_pure :
    ∀ (σ ι ω κ : Type) (S : FusedStreamImpl σ ι κ) (F : FusedFutureImpl σ ω κ)
      (w : AlwaysSend σ),
      observe (AlwaysSend.size_hint S.toStreamImpl) w = (w, S.size_hint w.inner) ∧
      observe (AlwaysSend.stream_is_terminated S) w = (w, S.is_terminated w.inner) ∧
      observe (AlwaysSend.future_is_terminated F) w = (w, F.is_terminated w.inner) :=
  fun _ _ _ _ _ _ _ => ⟨rfl, rfl, rfl⟩

/-- C10: the unconditional grant covers only `Send`, not `Sync`: the
wrapper's `Sync` status equals the inner type's (no unconditional `Sync`
impl exists in src/lib.rs, so the auto-trait rule applies), there is a
wrapped type that is `Send` but not `Sync`, and a shared reference to the
wrapper may cross threads exactly when `T` itself is `Sync`. -/
theorem C10_no_unconditional_sync :
    (∀ t : Ty, syncable (Ty.alwaysSend t) = syncable t) ∧
    (∃ t : Ty, sendable (Ty.alwaysSend t) = true ∧
      syncable (Ty.alwaysSend t) = false) ∧
    (∀ t : Ty, sendable (Ty.ref (Ty.alwaysSend t)) = syncable t) :=
  ⟨fun _ => rfl, ⟨Ty.prim false false false, rfl, rfl⟩, fun _ => rfl⟩
